import Mathlib

/-!
Verification of the chunked multipart upload coordinator
(`mcp_powerdrill_create_data_source_from_local_file` tool handler and its
helpers `readFileChunk`, `uploadFileChunk`, `pollDataSourceStatus`, together
with the `PowerdrillClient` methods it calls).

The TypeScript handler is embedded shallowly: the external world (filesystem,
HTTP endpoints) is an oracle record `Env`; the handler is a pure function from
its arguments and the oracle to a result together with the ordered trace of
outward calls it makes.  Machine numbers are `Nat`/`Int` (JavaScript numbers
stay far below 2^53 here, so no overflow modelling is needed).
-/

/-- Default for the `chunk_size` tool argument: `5 * 1024 * 1024` (zod
`.default(5 * 1024 * 1024)`). -/
def chunkSizeDefault : Nat := 5 * 1024 * 1024

/-- Default `maxAttempts` parameter of `pollDataSourceStatus`. -/
def maxAttemptsDefault : Nat := 20

/-- Default `delayMs` parameter of `pollDataSourceStatus`. -/
def delayMsDefault : Nat := 3000

/-- `const startByte = (part.number - 1) * chunk_size;` (JavaScript numbers,
embedded as `Int`). -/
def startByte (chunk_size : Nat) (number : Nat) : Int :=
  ((number : Int) - 1) * (chunk_size : Int)

/-- `const endByte = Math.min(startByte + part.size - 1, fileSize - 1);` -/
def endByte (chunk_size fileSize : Nat) (number size : Nat) : Int :=
  min (startByte chunk_size number + (size : Int) - 1) ((fileSize : Int) - 1)

/-- The set of byte indices covered by the inclusive range
`[startByte, endByte]` that the handler reads and PUTs for one part. -/
def partByteSet (chunk_size fileSize : Nat) (number size : Nat) : Set Int :=
  Set.Icc (startByte chunk_size number) (endByte chunk_size fileSize number size)

/-- `etag.replace(/"/g, '')`: the regex replaces every `"` character by the
empty string, i.e. removes every quote character from the string. -/
def stripQuotes (s : String) : String :=
  String.mk (s.data.filter (fun ch => ch != '"'))

/-- `path.basename(file_path)`: the final path component. -/
def basename (p : String) : String :=
  (p.splitOn "/").getLastD p

/-- `const actualFileName = file_name || path.basename(file_path);` —
JavaScript `||` falls through on `undefined` and on the empty string (the only
falsy string). -/
def actualFileName (file_name : Option String) (file_path : String) : String :=
  match file_name with
  | none => basename file_path
  | some s => if s = "" then basename file_path else s

/-- One element of `part_items` in the initiation response. -/
structure PartItem where
  number : Nat
  size : Nat
  upload_url : String
deriving DecidableEq

/-- The `data` object of the initiation response.  `part_items` is an
`Option` because the response body may omit the field (the handler checks
only `code !== 0 || !data`, never `part_items` itself). -/
structure InitData where
  upload_id : String
  file_object_key : String
  part_items : Option (List PartItem)
deriving DecidableEq

/-- Response of `PowerdrillClient.initiateMultipartUpload`. -/
structure InitResponse where
  code : Int
  data : Option InitData
deriving DecidableEq

/-- One entry pushed onto `partEtags`. -/
structure PartEtag where
  number : Nat
  etag : String
deriving DecidableEq

/-- The `data` object of the completion response (the handler reads
`completeUploadResponse.data.file_object_key`). -/
structure CompleteData where
  file_object_key : String
deriving DecidableEq

/-- Response of `PowerdrillClient.completeMultipartUpload`. -/
structure CompleteResponse where
  code : Int
  data : Option CompleteData
deriving DecidableEq

/-- The `data` object of the data-source creation response. -/
structure CreateData where
  id : String
deriving DecidableEq

/-- Response of `PowerdrillClient.createDataSource`. -/
structure CreateResponse where
  code : Int
  data : Option CreateData
deriving DecidableEq

/-- The `data` object of a `getDataSource` status response (the fields the
handler reads). -/
structure DataSourceData where
  status : String
  name : String
  type : String
  size : Nat
deriving DecidableEq

/-- Response of `PowerdrillClient.getDataSource`. -/
structure GetDataSourceResponse where
  code : Int
  data : DataSourceData
deriving DecidableEq

/-- Oracle for the external world of one handler invocation: filesystem
metadata, the remote API's responses, and the storage endpoint's reaction to
each PUT.  `readChunk` is keyed by the requested inclusive byte range;
`putResult` is keyed by the upload URL and yields either a failure message or
the optional `ETag` response header. -/
structure Env where
  fileExists : Bool
  fileSize : Nat
  initResponse : InitResponse
  readChunk : Int → Int → Except String (List Nat)
  putResult : String → Except String (Option String)
  completeResponse : CompleteResponse
  createResponse : CreateResponse
  pollResponses : Nat → GetDataSourceResponse

/-- The tool arguments after zod parsing (`chunk_size = none` means the
argument was omitted, in which case zod substitutes `chunkSizeDefault`). -/
structure Args where
  dataset_id : String
  file_path : String
  file_name : Option String
  chunk_size : Option Nat

/-- The errors the handler can surface, one constructor per distinct failure
site in the source:
* `fileNotFound` — `File not found: ${file_path}`;
* `initiationFailed` — `Failed to initiate multipart upload: ...`, thrown
  when `initUploadResponse.code !== 0 || !initUploadResponse.data`;
* `partItemsNotIterable` — the JavaScript runtime `TypeError` raised by
  `for (const part of part_items)` when `part_items` is `undefined`;
* `readError` — rejection of the `readFileChunk` promise, carrying the
  underlying message;
* `putError` — the error rethrown by `uploadFileChunk`, carrying the
  underlying message (the part number is not recorded);
* `completionFailed` — `Failed to complete multipart upload: ...`;
* `creationFailed` — `Failed to create data source: ...`;
* `getStatusError` — `Error getting data source status: ...`;
* `processingFailed` — `Data source processing failed with status: invalid`;
* `syncTimeout` — `Timed out waiting for data source to be synched ...`. -/
inductive HandlerError where
  | fileNotFound (path : String)
  | initiationFailed
  | partItemsNotIterable
  | readError (msg : String)
  | putError (msg : String)
  | completionFailed
  | creationFailed
  | getStatusError
  | processingFailed
  | syncTimeout
deriving DecidableEq

/-- One outward call of the handler, in program order:
initiation POST, per-part PUT (with the inclusive byte range read for it),
completion POST, data-source creation POST, status GET, and the
`setTimeout` wait between polling attempts. -/
inductive CallEvent where
  | initiateCall (file_name : String) (file_size : Nat)
  | putCall (upload_url : String) (startB endB : Int)
  | completeCall (file_object_key upload_id : String) (part_etags : List PartEtag)
  | createCall (dataset_id name tp file_object_key : String)
  | getCall (attempt : Nat)
  | waitCall (ms : Nat)
deriving DecidableEq

/-- The JSON success payload the handler returns. -/
structure SuccessPayload where
  dataset_id : String
  data_source_id : String
  data_source_name : String
  data_source_type : String
  data_source_status : String
  data_source_size : Nat
  file_name : String
  file_size : Nat
  file_object_key : String
deriving DecidableEq

/-- The PUT event emitted for one part. -/
def putEvent (chunk_size fileSize : Nat) (p : PartItem) : CallEvent :=
  CallEvent.putCall p.upload_url (startByte chunk_size p.number)
    (endByte chunk_size fileSize p.number p.size)

/-- The part-upload loop (`for (const part of part_items) { ... }`): for each
part in the given order, compute the byte range, read it (`readFileChunk`),
PUT it (`uploadFileChunk`, which extracts the `ETag` header, defaults it to
`''` and strips quote characters), and collect `{number, etag}`.  A rejected
read or PUT propagates out, aborting the rest of the loop. -/
def uploadParts (env : Env) (chunk_size fileSize : Nat) :
    List PartItem → Except HandlerError (List PartEtag) × List CallEvent
  | [] => (Except.ok [], [])
  | p :: rest =>
    match env.readChunk (startByte chunk_size p.number)
        (endByte chunk_size fileSize p.number p.size) with
    | Except.error msg => (Except.error (HandlerError.readError msg), [])
    | Except.ok _chunk =>
      match env.putResult p.upload_url with
      | Except.error msg =>
          (Except.error (HandlerError.putError msg), [putEvent chunk_size fileSize p])
      | Except.ok header =>
        let pe : PartEtag := ⟨p.number, stripQuotes (header.getD "")⟩
        let r := uploadParts env chunk_size fileSize rest
        match r.1 with
        | Except.error e => (Except.error e, putEvent chunk_size fileSize p :: r.2)
        | Except.ok etags => (Except.ok (pe :: etags), putEvent chunk_size fileSize p :: r.2)

/-- One `while (attempts < maxAttempts)` iteration of `pollDataSourceStatus`
and its successors, recursing on the remaining attempt budget; `k` is the
absolute index of the current attempt (0-based).  Each iteration fetches the
status (`getCall`), then: `code !== 0` → throw; `synched` → return the
response; `invalid` → throw; otherwise wait `delayMs` and continue.  An
exhausted budget throws the timeout error. -/
def pollAux (resp : Nat → GetDataSourceResponse) (delayMs : Nat) :
    Nat → Nat → Except HandlerError GetDataSourceResponse × List CallEvent
  | _, 0 => (Except.error HandlerError.syncTimeout, [])
  | k, fuel + 1 =>
    let r := resp k
    if r.code ≠ 0 then
      (Except.error HandlerError.getStatusError, [CallEvent.getCall k])
    else if r.data.status = "synched" then
      (Except.ok r, [CallEvent.getCall k])
    else if r.data.status = "invalid" then
      (Except.error HandlerError.processingFailed, [CallEvent.getCall k])
    else
      let rest := pollAux resp delayMs (k + 1) fuel
      (rest.1, CallEvent.getCall k :: CallEvent.waitCall delayMs :: rest.2)

/-- `pollDataSourceStatus(datasetId, dataSourceId, maxAttempts = 20, delayMs
= 3000)`: poll from attempt 0 with the full budget. -/
def pollDataSourceStatus (resp : Nat → GetDataSourceResponse)
    (maxAttempts delayMs : Nat) :
    Except HandlerError GetDataSourceResponse × List CallEvent :=
  pollAux resp delayMs 0 maxAttempts

/-- The handler body after file validation and name resolution (steps 1–5 of
the tool handler, starting at the initiation-response check).  The
`initiateCall` event itself is emitted by `runHandler`, which wraps this. -/
def runResolved (dataset_id name : String) (chunk_size : Nat) (env : Env) :
    Except HandlerError SuccessPayload × List CallEvent :=
  if env.initResponse.code ≠ 0 then (Except.error HandlerError.initiationFailed, [])
  else
    match env.initResponse.data with
    | none => (Except.error HandlerError.initiationFailed, [])
    | some d =>
      match d.part_items with
      | none => (Except.error HandlerError.partItemsNotIterable, [])
      | some parts =>
        let up := uploadParts env chunk_size env.fileSize parts
        match up.1 with
        | Except.error e => (Except.error e, up.2)
        | Except.ok partEtags =>
          let completeEv := CallEvent.completeCall d.file_object_key d.upload_id partEtags
          if env.completeResponse.code ≠ 0 then
            (Except.error HandlerError.completionFailed, up.2 ++ [completeEv])
          else
            match env.completeResponse.data with
            | none => (Except.error HandlerError.completionFailed, up.2 ++ [completeEv])
            | some cd =>
              let createEv := CallEvent.createCall dataset_id name "FILE" cd.file_object_key
              if env.createResponse.code ≠ 0 then
                (Except.error HandlerError.creationFailed, up.2 ++ [completeEv, createEv])
              else
                match env.createResponse.data with
                | none =>
                    (Except.error HandlerError.creationFailed, up.2 ++ [completeEv, createEv])
                | some crd =>
                  let poll := pollDataSourceStatus env.pollResponses
                    maxAttemptsDefault delayMsDefault
                  match poll.1 with
                  | Except.error e =>
                      (Except.error e, up.2 ++ [completeEv, createEv] ++ poll.2)
                  | Except.ok final =>
                      (Except.ok ⟨dataset_id, crd.id, final.data.name, final.data.type,
                          final.data.status, final.data.size, name, env.fileSize,
                          d.file_object_key⟩,
                        up.2 ++ [completeEv, createEv] ++ poll.2)

/-- The whole tool handler: validate that the file exists (else fail with
`FileNotFound` before any remote call), record `fileSize` from `statSync`,
resolve the file name, then initiate the upload (the `initiateCall` event,
carrying the resolved name and the recorded size) and run the rest. -/
def runHandler (args : Args) (env : Env) :
    Except HandlerError SuccessPayload × List CallEvent :=
  if env.fileExists then
    let name := actualFileName args.file_name args.file_path
    let r := runResolved args.dataset_id name (args.chunk_size.getD chunkSizeDefault) env
    (r.1, CallEvent.initiateCall name env.fileSize :: r.2)
  else
    (Except.error (HandlerError.fileNotFound args.file_path), [])

/-- A `getDataSource` response that keeps the polling loop going: well-formed
(`code = 0`) and neither terminal status. -/
def statusOkNonterminal (r : GetDataSourceResponse) : Prop :=
  r.code = 0 ∧ r.data.status ≠ "synched" ∧ r.data.status ≠ "invalid"

instance (r : GetDataSourceResponse) : Decidable (statusOkNonterminal r) := by
  unfold statusOkNonterminal; infer_instance

/-- The trace of `k` consecutive non-terminal polling iterations starting at
attempt `i`: fetch, wait, fetch, wait, ... -/
def pollEventsFrom (delayMs i : Nat) : Nat → List CallEvent
  | 0 => []
  | k + 1 => CallEvent.getCall i :: CallEvent.waitCall delayMs ::
      pollEventsFrom delayMs (i + 1) k

/-- Number of status fetches in a trace. -/
def fetchCount (evs : List CallEvent) : Nat :=
  evs.countP (fun e => match e with | CallEvent.getCall _ => true | _ => false)

/-- Number of waits in a trace. -/
def waitCount (evs : List CallEvent) : Nat :=
  evs.countP (fun e => match e with | CallEvent.waitCall _ => true | _ => false)

/-- Whether an event is a PUT to some upload URL. -/
def isPutCall : CallEvent → Bool
  | CallEvent.putCall _ _ _ => true
  | _ => false

/-- Whether an event is the completion POST. -/
def isCompleteCall : CallEvent → Bool
  | CallEvent.completeCall _ _ _ => true
  | _ => false

/-- Whether an event is a PUT to the given URL. -/
def isPutTo (u : String) : CallEvent → Bool
  | CallEvent.putCall v _ _ => v == u
  | _ => false

/-- A part whose read and PUT both succeed in the given environment. -/
def stepOk (env : Env) (chunk_size fileSize : Nat) (p : PartItem) : Prop :=
  (∃ ch, env.readChunk (startByte chunk_size p.number)
      (endByte chunk_size fileSize p.number p.size) = Except.ok ch) ∧
  (∃ h, env.putResult p.upload_url = Except.ok h)

theorem pollAux_skip (resp : Nat → GetDataSourceResponse) (d : Nat) :
    ∀ (k i fuel : Nat), (∀ j, j < k → statusOkNonterminal (resp (i + j))) →
    pollAux resp d i (k + fuel) =
      ((pollAux resp d (i + k) fuel).1,
        pollEventsFrom d i k ++ (pollAux resp d (i + k) fuel).2) := by
  intro k
  induction k with
  | zero => intro i fuel _; simp [pollEventsFrom]
  | succ k ih =>
    intro i fuel h
    obtain ⟨hc, hs, hi⟩ : statusOkNonterminal (resp i) := by
      have := h 0 (Nat.succ_pos k); simpa using this
    have hstep : k + 1 + fuel = (k + fuel) + 1 := by omega
    rw [hstep]
    have hrec := ih (i + 1) fuel (by
      intro j hj
      have := h (j + 1) (by omega)
      simpa [Nat.add_assoc, Nat.add_comm 1 j] using this)
    simp only [pollAux, hc, hs, hi, if_neg, if_pos, ne_eq, not_true_eq_false,
      not_false_eq_true, ite_false, ite_true]
    simp only [hrec, pollEventsFrom]
    rw [show i + 1 + k = i + (k + 1) by omega]
    simp

theorem fetchCount_pollEventsFrom (d : Nat) :
    ∀ k i, fetchCount (pollEventsFrom d i k) = k := by
  intro k
  induction k with
  | zero => intro i; simp [pollEventsFrom, fetchCount]
  | succ k ih =>
    intro i
    have h := ih (i + 1)
    unfold fetchCount at h
    simp [pollEventsFrom, fetchCount, List.countP_cons, h]

theorem waitCount_pollEventsFrom (d : Nat) :
    ∀ k i, waitCount (pollEventsFrom d i k) = k := by
  intro k
  induction k with
  | zero => intro i; simp [pollEventsFrom, waitCount]
  | succ k ih =>
    intro i
    have h := ih (i + 1)
    unfold waitCount at h
    simp [pollEventsFrom, waitCount, List.countP_cons, h]

theorem fetchCount_append (a b : List CallEvent) :
    fetchCount (a ++ b) = fetchCount a + fetchCount b := by
  unfold fetchCount; exact List.countP_append _ _ _

theorem waitCount_append (a b : List CallEvent) :
    waitCount (a ++ b) = waitCount a + waitCount b := by
  unfold waitCount; exact List.countP_append _ _ _

/-- Claim C4: if the status check at attempt `k` (0-based; the earlier
attempts all being well-formed and non-terminal) reports `invalid`, the
polling loop fails on that very attempt with the `DataSourceProcessingFailed`
error: the trace ends right after that fetch (no further fetch, no further
wait), with exactly `k + 1` fetches and `k` waits, and the fetch count never
exceeds the attempt cap. -/
theorem invalid_status_stops_polling (resp : Nat → GetDataSourceResponse)
    (maxAttempts delayMs k : Nat) (hk : k < maxAttempts)
    (hcode : (resp k).code = 0) (hinv : (resp k).data.status = "invalid")
    (hpre : ∀ j, j < k → statusOkNonterminal (resp j)) :
    pollDataSourceStatus resp maxAttempts delayMs =
      (Except.error HandlerError.processingFailed,
        pollEventsFrom delayMs 0 k ++ [CallEvent.getCall k]) ∧
    fetchCount (pollDataSourceStatus resp maxAttempts delayMs).2 = k + 1 ∧
    waitCount (pollDataSourceStatus resp maxAttempts delayMs).2 = k ∧
    k + 1 ≤ maxAttempts := by
  have hsplit : maxAttempts = k + ((maxAttempts - (k + 1)) + 1) := by omega
  have hskip := pollAux_skip resp delayMs k 0 ((maxAttempts - (k + 1)) + 1)
    (by simpa using hpre)
  simp only [Nat.zero_add] at hskip
  have hone : pollAux resp delayMs k ((maxAttempts - (k + 1)) + 1) =
      (Except.error HandlerError.processingFailed, [CallEvent.getCall k]) := by
    simp [pollAux, hcode, hinv]
  have heq : pollDataSourceStatus resp maxAttempts delayMs =
      (Except.error HandlerError.processingFailed,
        pollEventsFrom delayMs 0 k ++ [CallEvent.getCall k]) := by
    unfold pollDataSourceStatus
    rw [hsplit, hskip, hone]
  refine ⟨heq, ?_, ?_, by omega⟩
  · rw [heq]
    have h1 := fetchCount_pollEventsFrom delayMs k 0
    unfold fetchCount at h1
    simp [fetchCount_append, h1, fetchCount]
  · rw [heq]
    have h1 := waitCount_pollEventsFrom delayMs k 0
    unfold waitCount at h1
    simp [waitCount_append, h1, waitCount]

/-- Claim C4 witness: concrete run where attempts 0 and 1 report `synching`
and attempt 2 reports `invalid`, with the default budget of 20 attempts. -/
def pollRespInvalidAt2 : Nat → GetDataSourceResponse := fun j =>
  if j < 2 then ⟨0, ⟨"synching", "report.csv", "FILE", 1024⟩⟩
  else ⟨0, ⟨"invalid", "report.csv", "FILE", 1024⟩⟩

theorem invalid_status_stops_polling_witness :
    (2 < 20 ∧ (pollRespInvalidAt2 2).code = 0 ∧
      (pollRespInvalidAt2 2).data.status = "invalid" ∧
      ∀ j, j < 2 → statusOkNonterminal (pollRespInvalidAt2 j)) ∧
    (pollDataSourceStatus pollRespInvalidAt2 20 3000 =
      (Except.error HandlerError.processingFailed,
        pollEventsFrom 3000 0 2 ++ [CallEvent.getCall 2]) ∧
    fetchCount (pollDataSourceStatus pollRespInvalidAt2 20 3000).2 = 2 + 1 ∧
    waitCount (pollDataSourceStatus pollRespInvalidAt2 20 3000).2 = 2 ∧
    2 + 1 ≤ 20) :=
  ⟨⟨by decide, by decide, by decide, by decide⟩,
    invalid_status_stops_polling pollRespInvalidAt2 20 3000 2 (by decide)
      (by decide) (by decide) (by decide)⟩

/-- Claim C5: if every attempt within the budget reports a well-formed,
non-terminal status, the loop performs exactly `maxAttempts` fetches (and
`maxAttempts` waits) and then fails with the timeout error — it never polls
past the attempt cap; the defaults are 20 attempts at 3000 ms. -/
theorem nonterminal_exhausts_budget (resp : Nat → GetDataSourceResponse)
    (maxAttempts delayMs : Nat)
    (h : ∀ j, j < maxAttempts → statusOkNonterminal (resp j)) :
    pollDataSourceStatus resp maxAttempts delayMs =
      (Except.error HandlerError.syncTimeout, pollEventsFrom delayMs 0 maxAttempts) ∧
    fetchCount (pollDataSourceStatus resp maxAttempts delayMs).2 = maxAttempts ∧
    waitCount (pollDataSourceStatus resp maxAttempts delayMs).2 = maxAttempts ∧
    maxAttemptsDefault = 20 ∧ delayMsDefault = 3000 := by
  have hskip := pollAux_skip resp delayMs maxAttempts 0 0 (by simpa using h)
  simp only [Nat.zero_add, Nat.add_zero] at hskip
  have heq : pollDataSourceStatus resp maxAttempts delayMs =
      (Except.error HandlerError.syncTimeout, pollEventsFrom delayMs 0 maxAttempts) := by
    unfold pollDataSourceStatus
    rw [hskip]
    simp [pollAux]
  refine ⟨heq, ?_, ?_, rfl, rfl⟩
  · rw [heq]; exact fetchCount_pollEventsFrom delayMs maxAttempts 0
  · rw [heq]; exact waitCount_pollEventsFrom delayMs maxAttempts 0

/-- Claim C5 witness: every attempt of the default budget of 20 reports
`synching`; the run times out after exactly 20 fetches. -/
def pollRespAlwaysSynching : Nat → GetDataSourceResponse := fun _ =>
  ⟨0, ⟨"synching", "report.csv", "FILE", 1024⟩⟩

theorem nonterminal_exhausts_budget_witness :
    (∀ j, j < 20 → statusOkNonterminal (pollRespAlwaysSynching j)) ∧
    (pollDataSourceStatus pollRespAlwaysSynching 20 3000 =
      (Except.error HandlerError.syncTimeout, pollEventsFrom 3000 0 20) ∧
    fetchCount (pollDataSourceStatus pollRespAlwaysSynching 20 3000).2 = 20 ∧
    waitCount (pollDataSourceStatus pollRespAlwaysSynching 20 3000).2 = 20 ∧
    maxAttemptsDefault = 20 ∧ delayMsDefault = 3000) :=
  ⟨by decide, nonterminal_exhausts_budget pollRespAlwaysSynching 20 3000 (by decide)⟩

/-- Claim C8: if the status check at attempt `k` (0-based — the `k+1`-st
attempt, the earlier ones all well-formed and non-terminal) reports
`synched`, polling succeeds, returning exactly that attempt's response, and
the trace ends right after that fetch: exactly `k + 1` fetches, no further
polling. -/
theorem synched_returns_immediately (resp : Nat → GetDataSourceResponse)
    (maxAttempts delayMs k : Nat) (hk : k < maxAttempts)
    (hcode : (resp k).code = 0) (hsy : (resp k).data.status = "synched")
    (hpre : ∀ j, j < k → statusOkNonterminal (resp j)) :
    pollDataSourceStatus resp maxAttempts delayMs =
      (Except.ok (resp k), pollEventsFrom delayMs 0 k ++ [CallEvent.getCall k]) ∧
    fetchCount (pollDataSourceStatus resp maxAttempts delayMs).2 = k + 1 ∧
    waitCount (pollDataSourceStatus resp maxAttempts delayMs).2 = k := by
  have hsplit : maxAttempts = k + ((maxAttempts - (k + 1)) + 1) := by omega
  have hskip := pollAux_skip resp delayMs k 0 ((maxAttempts - (k + 1)) + 1)
    (by simpa using hpre)
  simp only [Nat.zero_add] at hskip
  have hone : pollAux resp delayMs k ((maxAttempts - (k + 1)) + 1) =
      (Except.ok (resp k), [CallEvent.getCall k]) := by
    simp [pollAux, hcode, hsy]
  have heq : pollDataSourceStatus resp maxAttempts delayMs =
      (Except.ok (resp k), pollEventsFrom delayMs 0 k ++ [CallEvent.getCall k]) := by
    unfold pollDataSourceStatus
    rw [hsplit, hskip, hone]
  refine ⟨heq, ?_, ?_⟩
  · rw [heq]
    have h1 := fetchCount_pollEventsFrom delayMs k 0
    unfold fetchCount at h1
    simp [fetchCount_append, h1, fetchCount]
  · rw [heq]
    have h1 := waitCount_pollEventsFrom delayMs k 0
    unfold waitCount at h1
    simp [waitCount_append, h1, waitCount]

/-- Claim C8 witness: the spec's scenario — attempt 5 of 20 (0-based index 4)
reports `synched`; the run succeeds with that attempt's record after exactly
5 fetches. -/
def pollRespSynchedAt4 : Nat → GetDataSourceResponse := fun j =>
  if j < 4 then ⟨0, ⟨"synching", "report.csv", "FILE", 1024⟩⟩
  else ⟨0, ⟨"synched", "report.csv", "FILE", 1024⟩⟩

theorem synched_returns_immediately_witness :
    (4 < 20 ∧ (pollRespSynchedAt4 4).code = 0 ∧
      (pollRespSynchedAt4 4).data.status = "synched" ∧
      ∀ j, j < 4 → statusOkNonterminal (pollRespSynchedAt4 j)) ∧
    (pollDataSourceStatus pollRespSynchedAt4 20 3000 =
      (Except.ok (pollRespSynchedAt4 4),
        pollEventsFrom 3000 0 4 ++ [CallEvent.getCall 4]) ∧
    fetchCount (pollDataSourceStatus pollRespSynchedAt4 20 3000).2 = 4 + 1 ∧
    waitCount (pollDataSourceStatus pollRespSynchedAt4 20 3000).2 = 4) :=
  ⟨⟨by decide, by decide, by decide, by decide⟩,
    synched_returns_immediately pollRespSynchedAt4 20 3000 4 (by decide)
      (by decide) (by decide) (by decide)⟩

instance {ε α : Type} [DecidableEq ε] [DecidableEq α] : DecidableEq (Except ε α) := fun a b =>
  match a, b with
  | Except.error e₁, Except.error e₂ =>
    if h : e₁ = e₂ then Decidable.isTrue (by rw [h])
    else Decidable.isFalse (by intro c; injection c; exact h (by assumption))
  | Except.error _, Except.ok _ => Decidable.isFalse (fun c => Except.noConfusion c)
  | Except.ok _, Except.error _ => Decidable.isFalse (fun c => Except.noConfusion c)
  | Except.ok a₁, Except.ok a₂ =>
    if h : a₁ = a₂ then Decidable.isTrue (by rw [h])
    else Decidable.isFalse (by intro c; injection c; exact h (by assumption))

theorem stripQuotes_no_quote (s : String) : '"' ∉ (stripQuotes s).data := by
  intro h
  have h' : '"' ∈ s.data.filter (fun ch => ch != '"') := h
  rw [List.mem_filter] at h'
  simp at h'

/-- Structure of a fully successful run of the part-upload loop: the stored
Part Results carry exactly the part numbers of `part_items` in the same
order, one PUT event is emitted per part in order, and no stored ETag
contains a quote character. -/
theorem uploadParts_ok_shape (env : Env) (c F : Nat) :
    ∀ parts etags evs, uploadParts env c F parts = (Except.ok etags, evs) →
      etags.map PartEtag.number = parts.map PartItem.number ∧
      evs = parts.map (putEvent c F) ∧
      ∀ pe ∈ etags, '"' ∉ pe.etag.data := by
  intro parts
  induction parts with
  | nil =>
    intro etags evs h
    simp only [uploadParts, Prod.mk.injEq] at h
    obtain ⟨h1, h2⟩ := h
    cases h1
    subst h2
    simp
  | cons p rest ih =>
    intro etags evs h
    simp only [uploadParts] at h
    split at h
    · exact absurd h (by simp)
    · split at h
      · exact absurd h (by simp)
      · split at h
        · exact absurd h (by simp)
        · rename_i header _ etags' heq
          simp only [Prod.mk.injEq, Except.ok.injEq] at h
          obtain ⟨h1, h2⟩ := h
          subst h1
          subst h2
          have hrest := ih etags' (uploadParts env c F rest).2 (by rw [← heq])
          obtain ⟨hn, he, hq⟩ := hrest
          refine ⟨by simp [hn], by simp [he], ?_⟩
          intro pe hpe
          rcases List.mem_cons.mp hpe with h | h
          · subst h
            exact stripQuotes_no_quote _
          · exact hq pe h

/-- Claim C7: whatever ETag header value the storage endpoint returns for a
part PUT (quoted or not, or even absent), the ETag stored in the
corresponding Part Result contains no quote character: `uploadFileChunk`
strips every quote before the value is appended to `partEtags`. -/
theorem stored_etags_have_no_quotes (env : Env) (c F : Nat)
    (parts : List PartItem) (etags : List PartEtag) (evs : List CallEvent)
    (h : uploadParts env c F parts = (Except.ok etags, evs)) :
    ∀ pe ∈ etags, '"' ∉ pe.etag.data :=
  (uploadParts_ok_shape env c F parts etags evs h).2.2

/-- Environment whose storage endpoint returns a quoted ETag header. -/
def envQuotedEtag : Env where
  fileExists := true
  fileSize := 4
  initResponse := ⟨0, some ⟨"UP", "KEY", some [⟨1, 4, "u1"⟩]⟩⟩
  readChunk := fun _ _ => Except.ok []
  putResult := fun _ => Except.ok (some (String.mk ['"', 'a', 'b', 'c', '"']))
  completeResponse := ⟨0, some ⟨"KEY"⟩⟩
  createResponse := ⟨0, some ⟨"ds1"⟩⟩
  pollResponses := fun _ => ⟨0, ⟨"synched", "f.csv", "FILE", 4⟩⟩

/-- Claim C7 witness: a server-quoted ETag `"abc"` is stored as `abc`, and
the stored Part Results contain no quote character. -/
theorem stored_etags_have_no_quotes_witness :
    uploadParts envQuotedEtag 4 4 [⟨1, 4, "u1"⟩] =
      (Except.ok [⟨1, "abc"⟩], [putEvent 4 4 ⟨1, 4, "u1"⟩]) ∧
    ∀ pe ∈ ([⟨1, "abc"⟩] : List PartEtag), '"' ∉ pe.etag.data :=
  ⟨by decide, stored_etags_have_no_quotes envQuotedEtag 4 4 [⟨1, 4, "u1"⟩]
    [⟨1, "abc"⟩] [putEvent 4 4 ⟨1, 4, "u1"⟩] (by decide)⟩

/-- Arguments used by the concrete C2 scenarios. -/
def argsBase : Args := ⟨"dset", "/tmp/data.csv", none, some 4⟩

/-- Environment whose initiation response lists `part_items` in descending
part-number order. -/
def envUnsortedParts : Env where
  fileExists := true
  fileSize := 8
  initResponse := ⟨0, some ⟨"UP", "KEY", some [⟨2, 4, "u2"⟩, ⟨1, 4, "u1"⟩]⟩⟩
  readChunk := fun _ _ => Except.ok []
  putResult := fun _ => Except.ok (some "W")
  completeResponse := ⟨0, some ⟨"KEY"⟩⟩
  createResponse := ⟨0, some ⟨"ds1"⟩⟩
  pollResponses := fun _ => ⟨0, ⟨"synched", "data.csv", "FILE", 8⟩⟩

/-- Claim C2 counterexample: when the initiation response lists `part_items`
in the order [2, 1], the coordinator passes the Part Results to the
completion call in that same order — the `part_etags` sequence is NOT sorted
ascending by `number` (the code performs no sorting). -/
theorem partEtags_not_sorted_counterexample :
    CallEvent.completeCall "KEY" "UP" [⟨2, "W"⟩, ⟨1, "W"⟩] ∈
      (runHandler argsBase envUnsortedParts).2 ∧
    ¬ List.Sorted (· < ·) (([⟨2, "W"⟩, ⟨1, "W"⟩] : List PartEtag).map PartEtag.number) := by
  constructor
  · decide
  · decide

/-- Claim C2 (amended): the Part Results passed to completion carry exactly
the part numbers of `part_items`, in the same order (no reordering is
performed); consequently they are sorted ascending by `number` whenever the
initiation response's `part_items` sequence is — but not otherwise. -/
theorem partEtags_preserve_part_items_order (env : Env) (c F : Nat)
    (parts : List PartItem) (etags : List PartEtag) (evs : List CallEvent)
    (h : uploadParts env c F parts = (Except.ok etags, evs)) :
    etags.map PartEtag.number = parts.map PartItem.number ∧
    (List.Sorted (· < ·) (parts.map PartItem.number) →
      List.Sorted (· < ·) (etags.map PartEtag.number)) := by
  have hn := (uploadParts_ok_shape env c F parts etags evs h).1
  exact ⟨hn, fun hs => hn ▸ hs⟩

/-- Environment whose initiation response lists `part_items` in ascending
order. -/
def envSortedParts : Env where
  fileExists := true
  fileSize := 8
  initResponse := ⟨0, some ⟨"UP", "KEY", some [⟨1, 4, "u1"⟩, ⟨2, 4, "u2"⟩]⟩⟩
  readChunk := fun _ _ => Except.ok []
  putResult := fun _ => Except.ok (some "W")
  completeResponse := ⟨0, some ⟨"KEY"⟩⟩
  createResponse := ⟨0, some ⟨"ds1"⟩⟩
  pollResponses := fun _ => ⟨0, ⟨"synched", "data.csv", "FILE", 8⟩⟩

/-- Claim C2 (amended) witness: with ascending `part_items` [1, 2] the stored
sequence is [1, 2] and indeed sorted. -/
theorem partEtags_preserve_part_items_order_witness :
    uploadParts envSortedParts 4 8 [⟨1, 4, "u1"⟩, ⟨2, 4, "u2"⟩] =
      (Except.ok [⟨1, "W"⟩, ⟨2, "W"⟩],
        [putEvent 4 8 ⟨1, 4, "u1"⟩, putEvent 4 8 ⟨2, 4, "u2"⟩]) ∧
    (([⟨1, "W"⟩, ⟨2, "W"⟩] : List PartEtag).map PartEtag.number =
        ([⟨1, 4, "u1"⟩, ⟨2, 4, "u2"⟩] : List PartItem).map PartItem.number ∧
      (List.Sorted (· < ·) (([⟨1, 4, "u1"⟩, ⟨2, 4, "u2"⟩] : List PartItem).map PartItem.number) →
        List.Sorted (· < ·) (([⟨1, "W"⟩, ⟨2, "W"⟩] : List PartEtag).map PartEtag.number))) :=
  ⟨by decide, partEtags_preserve_part_items_order envSortedParts 4 8
    [⟨1, 4, "u1"⟩, ⟨2, 4, "u2"⟩] [⟨1, "W"⟩, ⟨2, "W"⟩]
    [putEvent 4 8 ⟨1, 4, "u1"⟩, putEvent 4 8 ⟨2, 4, "u2"⟩] (by decide)⟩

/-- Claim C3 (amended): when the initiation response indicates success
(`code = 0`, `data` present) but its body omits `part_items`, the operation
fails before any PUT call is made — the trace holds the initiation call only
— but the failure is the JavaScript runtime `TypeError` from iterating
`undefined` (`partItemsNotIterable`), not the `UploadInitiationFailed`
condition: the handler validates only `code !== 0 || !data` and never checks
`part_items`. -/
theorem missing_part_items_fails_before_put (a : Args) (env : Env) (d : InitData)
    (hex : env.fileExists = true)
    (hcode : env.initResponse.code = 0)
    (hdata : env.initResponse.data = some d)
    (hnone : d.part_items = none) :
    (runHandler a env).1 = Except.error HandlerError.partItemsNotIterable ∧
    (runHandler a env).2 =
      [CallEvent.initiateCall (actualFileName a.file_name a.file_path) env.fileSize] ∧
    ∀ ev ∈ (runHandler a env).2, isPutCall ev = false := by
  have hrr : runResolved a.dataset_id (actualFileName a.file_name a.file_path)
      (a.chunk_size.getD chunkSizeDefault) env =
      (Except.error HandlerError.partItemsNotIterable, []) := by
    unfold runResolved
    rw [hdata]
    simp [hcode, hnone]
  refine ⟨?_, ?_, ?_⟩ <;> simp [runHandler, hex, hrr, isPutCall]

/-- Environment whose initiation response indicates success but omits
`part_items`. -/
def envMissingPartItems : Env where
  fileExists := true
  fileSize := 4
  initResponse := ⟨0, some ⟨"UP", "KEY", none⟩⟩
  readChunk := fun _ _ => Except.ok []
  putResult := fun _ => Except.ok (some "W")
  completeResponse := ⟨0, some ⟨"KEY"⟩⟩
  createResponse := ⟨0, some ⟨"ds1"⟩⟩
  pollResponses := fun _ => ⟨0, ⟨"synched", "data.csv", "FILE", 4⟩⟩

/-- Claim C3 counterexample: with a successful-looking initiation response
that omits `part_items`, the handler fails with the runtime iteration error,
which is NOT the `UploadInitiationFailed` condition (though indeed no PUT is
made). -/
theorem missing_part_items_counterexample :
    (runHandler argsBase envMissingPartItems).1 =
      Except.error HandlerError.partItemsNotIterable ∧
    (runHandler argsBase envMissingPartItems).1 ≠
      Except.error HandlerError.initiationFailed ∧
    (runHandler argsBase envMissingPartItems).2.countP isPutCall = 0 :=
  ⟨by decide, by decide, by decide⟩

/-- Claim C3 (amended) witness: the concrete environment above instantiates
the amended theorem. -/
theorem missing_part_items_fails_before_put_witness :
    (envMissingPartItems.fileExists = true ∧
      envMissingPartItems.initResponse.code = 0 ∧
      envMissingPartItems.initResponse.data = some ⟨"UP", "KEY", none⟩ ∧
      (⟨"UP", "KEY", none⟩ : InitData).part_items = none) ∧
    ((runHandler argsBase envMissingPartItems).1 =
        Except.error HandlerError.partItemsNotIterable ∧
      (runHandler argsBase envMissingPartItems).2 =
        [CallEvent.initiateCall
          (actualFileName argsBase.file_name argsBase.file_path)
          envMissingPartItems.fileSize] ∧
      ∀ ev ∈ (runHandler argsBase envMissingPartItems).2, isPutCall ev = false) :=
  ⟨⟨rfl, rfl, rfl, rfl⟩,
    missing_part_items_fails_before_put argsBase envMissingPartItems
      ⟨"UP", "KEY", none⟩ rfl rfl rfl rfl⟩

/-- Claim C9: if the local file does not exist the handler fails with the
`FileNotFound` condition and its trace is empty — no initiation, PUT,
completion, creation or polling call is made; if the file exists, the first
outward call is the initiation request, already carrying `file_size` as
recorded from the filesystem metadata (`statSync`). -/
theorem validation_before_remote_calls (a : Args) (env : Env) :
    (env.fileExists = false →
      runHandler a env = (Except.error (HandlerError.fileNotFound a.file_path), [])) ∧
    (env.fileExists = true →
      (runHandler a env).2 =
        CallEvent.initiateCall (actualFileName a.file_name a.file_path) env.fileSize ::
          (runResolved a.dataset_id (actualFileName a.file_name a.file_path)
            (a.chunk_size.getD chunkSizeDefault) env).2) := by
  constructor
  · intro h; simp [runHandler, h]
  · intro h; simp [runHandler, h]

/-- Environment in which the file does not exist. -/
def envNoFile : Env where
  fileExists := false
  fileSize := 0
  initResponse := ⟨0, some ⟨"UP", "KEY", none⟩⟩
  readChunk := fun _ _ => Except.ok []
  putResult := fun _ => Except.ok (some "W")
  completeResponse := ⟨0, some ⟨"KEY"⟩⟩
  createResponse := ⟨0, some ⟨"ds1"⟩⟩
  pollResponses := fun _ => ⟨0, ⟨"synched", "data.csv", "FILE", 4⟩⟩

/-- Claim C9 witness: a missing file yields `FileNotFound` with an empty
trace; an existing file's first event is the initiation call with the
recorded size. -/
theorem validation_before_remote_calls_witness :
    runHandler argsBase envNoFile =
      (Except.error (HandlerError.fileNotFound "/tmp/data.csv"), []) ∧
    (runHandler argsBase envMissingPartItems).2 =
      CallEvent.initiateCall (actualFileName none "/tmp/data.csv") 4 ::
        (runResolved "dset" (actualFileName none "/tmp/data.csv") 4
          envMissingPartItems).2 :=
  ⟨(validation_before_remote_calls argsBase envNoFile).1 rfl,
    (validation_before_remote_calls argsBase envMissingPartItems).2 rfl⟩

/-- Claim C10: supplying `file_name` as the empty string behaves exactly as
omitting it — JavaScript `file_name || path.basename(file_path)` treats the
empty string as falsy — so the whole run (result, success payload, and every
outward call: initiation request, data source registration) is identical,
with the name resolving to the base name of `file_path`. -/
theorem empty_file_name_defaults (ds fp : String) (cs : Option Nat) (env : Env) :
    runHandler ⟨ds, fp, some "", cs⟩ env = runHandler ⟨ds, fp, none, cs⟩ env ∧
    actualFileName (some "") fp = basename fp := by
  constructor
  · simp [runHandler, actualFileName]
  · simp [actualFileName]

theorem uploadParts_read_error (env : Env) (c F : Nat) (p : PartItem)
    (post : List PartItem) (m : String)
    (h : env.readChunk (startByte c p.number) (endByte c F p.number p.size) =
      Except.error m) :
    uploadParts env c F (p :: post) =
      (Except.error (HandlerError.readError m), []) := by
  simp [uploadParts, h]

theorem uploadParts_put_error (env : Env) (c F : Nat) (p : PartItem)
    (post : List PartItem) (m : String) (ch : List Nat)
    (hr : env.readChunk (startByte c p.number) (endByte c F p.number p.size) =
      Except.ok ch)
    (hp : env.putResult p.upload_url = Except.error m) :
    uploadParts env c F (p :: post) =
      (Except.error (HandlerError.putError m), [putEvent c F p]) := by
  simp [uploadParts, hr, hp]

theorem uploadParts_error_of_prefix (env : Env) (c F : Nat) :
    ∀ (pre rest : List PartItem) (e : HandlerError),
      (∀ q ∈ pre, stepOk env c F q) →
      (uploadParts env c F rest).1 = Except.error e →
      uploadParts env c F (pre ++ rest) =
        (Except.error e, pre.map (putEvent c F) ++ (uploadParts env c F rest).2) := by
  intro pre
  induction pre with
  | nil =>
    intro rest e _ h
    simp only [List.nil_append, List.map_nil]
    exact Prod.ext h rfl
  | cons q pre ih =>
    intro rest e hok hrest
    obtain ⟨⟨ch, hread⟩, ⟨hd, hput⟩⟩ := hok q (by simp)
    have ih' := ih rest e (fun r hr => hok r (by simp [hr])) hrest
    show uploadParts env c F (q :: (pre ++ rest)) = _
    simp only [uploadParts, hread, hput, ih']
    simp

/-- Claim C6 (amended): if, with all earlier parts succeeding, reading or
PUTting the chunk of some part `p` fails, the whole operation fails with an
error carrying the underlying cause (but NOT the part number — the handler
rethrows the original error unchanged): no PUT is issued for any later part,
the completion call is never made, and — when the upload URLs are distinct,
as signed URLs are — each part's `upload_url` is PUT to at most once; no
individual part is retried. -/
theorem part_failure_aborts_upload (a : Args) (env : Env) (d : InitData)
    (pre post : List PartItem) (p : PartItem) (m : String) (c F : Nat)
    (hc : c = a.chunk_size.getD chunkSizeDefault) (hF : F = env.fileSize)
    (hex : env.fileExists = true)
    (hcode : env.initResponse.code = 0)
    (hdata : env.initResponse.data = some d)
    (hparts : d.part_items = some (pre ++ p :: post))
    (hok : ∀ q ∈ pre, stepOk env c F q)
    (hfail :
      env.readChunk (startByte c p.number) (endByte c F p.number p.size) =
          Except.error m ∨
        ((∃ ch, env.readChunk (startByte c p.number) (endByte c F p.number p.size) =
            Except.ok ch) ∧
          env.putResult p.upload_url = Except.error m)) :
    ((runHandler a env).1 = Except.error (HandlerError.readError m) ∨
      (runHandler a env).1 = Except.error (HandlerError.putError m)) ∧
    (∀ ev ∈ (runHandler a env).2, isPutCall ev = true →
      ev ∈ (pre ++ [p]).map (putEvent c F)) ∧
    (∀ ev ∈ (runHandler a env).2, isCompleteCall ev = false) ∧
    (((pre ++ p :: post).map PartItem.upload_url).Nodup →
      ∀ u, (runHandler a env).2.countP (isPutTo u) ≤ 1) := by
  subst hc
  subst hF
  obtain ⟨E, tail, hEor, hupl, htail⟩ :
      ∃ E tail, (E = HandlerError.readError m ∨ E = HandlerError.putError m) ∧
        uploadParts env (a.chunk_size.getD chunkSizeDefault) env.fileSize
            (pre ++ p :: post) =
          (Except.error E,
            pre.map (putEvent (a.chunk_size.getD chunkSizeDefault) env.fileSize) ++ tail) ∧
        List.Sublist tail
          [putEvent (a.chunk_size.getD chunkSizeDefault) env.fileSize p] := by
    rcases hfail with h | ⟨⟨ch, hr⟩, hp⟩
    · refine ⟨HandlerError.readError m, [], Or.inl rfl, ?_, List.nil_sublist _⟩
      have htl := uploadParts_read_error env _ _ p post m h
      have hall := uploadParts_error_of_prefix env _ _ pre (p :: post)
        (HandlerError.readError m) hok (by rw [htl])
      rw [hall, htl]
    · refine ⟨HandlerError.putError m, [putEvent _ _ p], Or.inr rfl, ?_,
        List.Sublist.refl _⟩
      have htl := uploadParts_put_error env _ _ p post m ch hr hp
      have hall := uploadParts_error_of_prefix env _ _ pre (p :: post)
        (HandlerError.putError m) hok (by rw [htl])
      rw [hall, htl]
  have hrr : runResolved a.dataset_id (actualFileName a.file_name a.file_path)
      (a.chunk_size.getD chunkSizeDefault) env =
      (Except.error E,
        pre.map (putEvent (a.chunk_size.getD chunkSizeDefault) env.fileSize) ++ tail) := by
    unfold runResolved
    rw [hdata]
    simp [hcode, hparts, hupl]
  have hrun : runHandler a env =
      (Except.error E,
        CallEvent.initiateCall (actualFileName a.file_name a.file_path) env.fileSize ::
          (pre.map (putEvent (a.chunk_size.getD chunkSizeDefault) env.fileSize) ++ tail)) := by
    simp [runHandler, hex, hrr]
  refine ⟨?_, ?_, ?_, ?_⟩
  · rcases hEor with h | h
    · subst h; left; rw [hrun]
    · subst h; right; rw [hrun]
  · intro ev hev hput
    rw [hrun] at hev
    simp only [List.mem_cons, List.mem_append] at hev
    rcases hev with rfl | hev | hev
    · simp [isPutCall] at hput
    · rw [List.map_append]
      exact List.mem_append_left _ hev
    · rw [List.map_append]
      refine List.mem_append_right _ ?_
      simpa using htail.subset hev
  · intro ev hev
    rw [hrun] at hev
    simp only [List.mem_cons, List.mem_append] at hev
    rcases hev with rfl | hev | hev
    · rfl
    · obtain ⟨q, _, rfl⟩ := List.mem_map.mp hev
      rfl
    · have h1 : ev ∈ [putEvent (a.chunk_size.getD chunkSizeDefault) env.fileSize p] :=
        htail.subset hev
      simp only [List.mem_singleton] at h1
      subst h1
      rfl
  · intro hnodup u
    rw [hrun, List.countP_cons]
    have h0 : isPutTo u (CallEvent.initiateCall
        (actualFileName a.file_name a.file_path) env.fileSize) = false := rfl
    rw [h0]
    simp only [Bool.false_eq_true, if_false, Nat.add_zero]
    have hsub1 : List.Sublist
        (pre.map (putEvent (a.chunk_size.getD chunkSizeDefault) env.fileSize) ++ tail)
        (pre.map (putEvent (a.chunk_size.getD chunkSizeDefault) env.fileSize) ++
          [putEvent (a.chunk_size.getD chunkSizeDefault) env.fileSize p]) :=
      htail.append_left _
    have hle1 := hsub1.countP_le (isPutTo u)
    have heq2 : List.countP (isPutTo u)
        (pre.map (putEvent (a.chunk_size.getD chunkSizeDefault) env.fileSize) ++
          [putEvent (a.chunk_size.getD chunkSizeDefault) env.fileSize p]) =
        List.count u ((pre ++ [p]).map PartItem.upload_url) := by
      have hmapsing : [putEvent (a.chunk_size.getD chunkSizeDefault) env.fileSize p] =
          List.map (putEvent (a.chunk_size.getD chunkSizeDefault) env.fileSize) [p] := rfl
      rw [hmapsing, ← List.map_append, List.countP_map, List.count_eq_countP,
        List.countP_map]
      rfl
    have hsub2 : List.Sublist ((pre ++ [p]).map PartItem.upload_url)
        ((pre ++ p :: post).map PartItem.upload_url) :=
      (List.Sublist.append_left (List.cons_sublist_cons.mpr (List.nil_sublist post)) pre).map _
    have hle2 : List.count u ((pre ++ [p]).map PartItem.upload_url) ≤ 1 :=
      List.nodup_iff_count_le_one.mp (hnodup.sublist hsub2) u
    omega

/-- Environment with a single part whose PUT fails with message `boom`. -/
def envPutFailsPart1 : Env where
  fileExists := true
  fileSize := 8
  initResponse := ⟨0, some ⟨"UP", "KEY", some [⟨1, 8, "a"⟩]⟩⟩
  readChunk := fun _ _ => Except.ok []
  putResult := fun _ => Except.error "boom"
  completeResponse := ⟨0, some ⟨"KEY"⟩⟩
  createResponse := ⟨0, some ⟨"ds1"⟩⟩
  pollResponses := fun _ => ⟨0, ⟨"synched", "data.csv", "FILE", 8⟩⟩

/-- Environment with two parts where part 1 uploads fine and part 2's PUT
fails with the same message `boom`. -/
def envPutFailsPart2 : Env where
  fileExists := true
  fileSize := 8
  initResponse := ⟨0, some ⟨"UP", "KEY", some [⟨1, 4, "a"⟩, ⟨2, 4, "b"⟩]⟩⟩
  readChunk := fun _ _ => Except.ok []
  putResult := fun u => if u == "a" then Except.ok (some "W") else Except.error "boom"
  completeResponse := ⟨0, some ⟨"KEY"⟩⟩
  createResponse := ⟨0, some ⟨"ds1"⟩⟩
  pollResponses := fun _ => ⟨0, ⟨"synched", "data.csv", "FILE", 8⟩⟩

/-- Claim C6 counterexample: the surfaced failure does NOT identify the part
number.  A run failing at part 1 and a run failing at part 2 (with the same
underlying cause) produce exactly the same error value, so no part number
can be recovered from it — the handler rethrows the underlying error
unchanged.  (The traces show the failing parts really differ: the first run
PUT part 1's URL `a`, the second also PUT part 2's URL `b`.) -/
theorem upload_error_lacks_part_number_counterexample :
    (runHandler argsBase envPutFailsPart1).1 =
      Except.error (HandlerError.putError "boom") ∧
    (runHandler argsBase envPutFailsPart2).1 =
      Except.error (HandlerError.putError "boom") ∧
    (runHandler argsBase envPutFailsPart1).1 = (runHandler argsBase envPutFailsPart2).1 ∧
    (runHandler argsBase envPutFailsPart1).2.countP (isPutTo "a") = 1 ∧
    (runHandler argsBase envPutFailsPart1).2.countP (isPutTo "b") = 0 ∧
    (runHandler argsBase envPutFailsPart2).2.countP (isPutTo "b") = 1 :=
  ⟨by decide, by decide, by decide, by decide, by decide, by decide⟩

/-- In `envPutFailsPart2`, part 1 reads and uploads fine. -/
theorem envPutFailsPart2_prefix_ok :
    ∀ q ∈ ([⟨1, 4, "a"⟩] : List PartItem), stepOk envPutFailsPart2 4 8 q := by
  intro q hq
  simp only [List.mem_singleton] at hq
  subst hq
  exact ⟨⟨[], rfl⟩, ⟨some "W", rfl⟩⟩

/-- Claim C6 (amended) witness: the two-part environment failing at part 2
instantiates the abort theorem. -/
theorem part_failure_aborts_upload_witness :
    ((∀ q ∈ ([⟨1, 4, "a"⟩] : List PartItem), stepOk envPutFailsPart2 4 8 q) ∧
      envPutFailsPart2.putResult "b" = Except.error "boom") ∧
    (((runHandler argsBase envPutFailsPart2).1 =
          Except.error (HandlerError.readError "boom") ∨
        (runHandler argsBase envPutFailsPart2).1 =
          Except.error (HandlerError.putError "boom")) ∧
      (∀ ev ∈ (runHandler argsBase envPutFailsPart2).2, isPutCall ev = true →
        ev ∈ (([⟨1, 4, "a"⟩] ++ [⟨2, 4, "b"⟩] : List PartItem)).map (putEvent 4 8)) ∧
      (∀ ev ∈ (runHandler argsBase envPutFailsPart2).2, isCompleteCall ev = false) ∧
      (((([⟨1, 4, "a"⟩] ++ ⟨2, 4, "b"⟩ :: [] : List PartItem)).map
          PartItem.upload_url).Nodup →
        ∀ u, (runHandler argsBase envPutFailsPart2).2.countP (isPutTo u) ≤ 1)) :=
  ⟨⟨envPutFailsPart2_prefix_ok, rfl⟩,
    part_failure_aborts_upload argsBase envPutFailsPart2
      ⟨"UP", "KEY", some [⟨1, 4, "a"⟩, ⟨2, 4, "b"⟩]⟩
      [⟨1, 4, "a"⟩] [] ⟨2, 4, "b"⟩ "boom" 4 8 rfl rfl rfl rfl rfl rfl
      envPutFailsPart2_prefix_ok
      (Or.inr ⟨⟨[], rfl⟩, rfl⟩)⟩

theorem getD_sizes_of_lt (m c l i : Nat) (h : i < m) :
    (List.replicate m c ++ [l]).getD i 0 = c := by
  rw [List.getD_append _ _ _ _ (by simpa using h)]
  simp [List.getD_eq_getElem?_getD, List.getElem?_replicate, h]

theorem getD_sizes_last (m c l : Nat) :
    (List.replicate m c ++ [l]).getD m 0 = l := by
  rw [List.getD_append_right _ _ _ _ (by simp)]
  simp

theorem mem_partByteSet_iff (c F i s : Nat) (x : Int) :
    x ∈ partByteSet c F (i + 1) s ↔
      ((i : Int) * (c : Int) ≤ x ∧ x < (i : Int) * (c : Int) + (s : Int) ∧
        x < (F : Int)) := by
  unfold partByteSet endByte startByte
  rw [Set.mem_Icc, le_min_iff]
  push_cast
  have h1 : ((i : Int) + 1 - 1) = (i : Int) := by ring
  rw [h1]
  set A := (i : Int) * (c : Int)
  omega

/-- Claim C1: for every file size `F` and every server-issued sequence of
part descriptors with contiguous 1-based part numbers whose sizes sum to `F`
and whose non-final sizes all equal `chunk_size` (such a sequence is exactly
`List.replicate m chunk_size ++ [lastSize]`, size read off by 0-based
position), the inclusive byte ranges the handler computes
(`startByte`/`endByte`) tile `[0, F)` exactly: every byte index belongs to
the range of exactly one part, in part-number order, with no gaps and no
overlaps (the final part may be shorter than `chunk_size`).  In particular
the three ranges of the spec's 3-part scenario with the default 5 MiB chunk
size come out as `[0, 5242879]`, `[5242880, 10485759]`,
`[10485760, 12058623]`. -/
theorem chunk_ranges_tile (c F m lastSize : Nat) (sizes : List Nat)
    (hc : 0 < c)
    (hsizes : sizes = List.replicate m c ++ [lastSize])
    (hsum : sizes.sum = F) :
    (∀ x : Int, (0 ≤ x ∧ x < (F : Int)) ↔
      ∃! i : Nat, i < sizes.length ∧
        x ∈ partByteSet c F (i + 1) (sizes.getD i 0)) ∧
    (chunkSizeDefault = 5242880 ∧
      startByte 5242880 1 = 0 ∧ endByte 5242880 12582912 1 5242880 = 5242879 ∧
      startByte 5242880 2 = 5242880 ∧ endByte 5242880 12582912 2 5242880 = 10485759 ∧
      startByte 5242880 3 = 10485760 ∧ endByte 5242880 12582912 3 1572864 = 12058623) := by
  constructor
  case right =>
    refine ⟨by norm_num [chunkSizeDefault], ?_, ?_, ?_, ?_, ?_, ?_⟩ <;>
      norm_num [startByte, endByte, min_def]
  subst hsizes
  have hF : m * c + lastSize = F := by
    simpa [List.sum_replicate, smul_eq_mul] using hsum
  have hlen : (List.replicate m c ++ [lastSize]).length = m + 1 := by simp
  intro x
  simp only [hlen]
  constructor
  · rintro ⟨hx0, hxF⟩
    have hxeq : ((x.toNat : Int)) = x := Int.toNat_of_nonneg hx0
    have huniq : ∀ j₁ j₂ : Nat, j₁ < j₂ → j₂ < m + 1 →
        x < (j₁ : Int) * (c : Int) +
          (((List.replicate m c ++ [lastSize]).getD j₁ 0 : Nat) : Int) →
        (j₂ : Int) * (c : Int) ≤ x → False := by
      intro j₁ j₂ hlt h2 hB hC
      rw [getD_sizes_of_lt m c lastSize j₁ (by omega)] at hB
      have hmul : (j₁ + 1) * c ≤ j₂ * c := Nat.mul_le_mul_right c (by omega)
      zify at hmul
      rw [add_mul, one_mul] at hmul
      omega
    obtain ⟨q, r, hqr, hrlt⟩ : ∃ q r, q * c + r = x.toNat ∧ r < c :=
      ⟨x.toNat / c, x.toNat % c, by rw [Nat.mul_comm]; exact Nat.div_add_mod x.toNat c,
        Nat.mod_lt x.toNat hc⟩
    have hZ : (q : Int) * (c : Int) + (r : Int) = ((x.toNat : Nat) : Int) := by
      exact_mod_cast hqr
    have hrZ : (r : Int) < (c : Int) := by exact_mod_cast hrlt
    have hFz : (m : Int) * (c : Int) + (lastSize : Int) = (F : Int) := by
      exact_mod_cast hF
    by_cases hq : q < m
    · refine ⟨q, ⟨by omega, ?_⟩, ?_⟩
      · rw [getD_sizes_of_lt m c lastSize _ hq, mem_partByteSet_iff]
        refine ⟨by omega, by omega, by omega⟩
      · rintro j ⟨hj, hjmem⟩
        rw [mem_partByteSet_iff] at hjmem
        obtain ⟨hjA, hjB, _⟩ := hjmem
        rcases Nat.lt_trichotomy j q with hlt | heq | hgt
        · exact (huniq j q hlt (by omega) hjB (by omega)).elim
        · exact heq
        · exact (huniq q j hgt hj
            (by rw [getD_sizes_of_lt m c lastSize _ hq]; omega) hjA).elim
    · push_neg at hq
      have hmcZ : (m : Int) * (c : Int) ≤ (q : Int) * (c : Int) := by
        exact_mod_cast Nat.mul_le_mul_right c hq
      refine ⟨m, ⟨by omega, ?_⟩, ?_⟩
      · rw [getD_sizes_last, mem_partByteSet_iff]
        refine ⟨by omega, by omega, by omega⟩
      · rintro j ⟨hj, hjmem⟩
        rw [mem_partByteSet_iff] at hjmem
        obtain ⟨hjA, hjB, _⟩ := hjmem
        rcases Nat.lt_trichotomy j m with hlt | heq | hgt
        · exact (huniq j m hlt (by omega) hjB (by omega)).elim
        · exact heq
        · omega
  · rintro ⟨i, ⟨hi, hmem⟩, _⟩
    rw [mem_partByteSet_iff] at hmem
    obtain ⟨hA, _, hC⟩ := hmem
    have h0 : (0 : Int) ≤ (i : Int) * (c : Int) := by positivity
    exact ⟨by omega, hC⟩

/-- Claim C1 witness: a 12 MiB file (`F = 12582912`) with the default 5 MiB
chunk size and server-issued part sizes `[5242880, 5242880, 2097152]`
instantiates the tiling theorem; the spec's literal range endpoints for its
3-part scenario are also verified. -/
theorem chunk_ranges_tile_witness :
    (0 < 5242880 ∧
      ([5242880, 5242880, 2097152] : List Nat) =
        List.replicate 2 5242880 ++ [2097152] ∧
      ([5242880, 5242880, 2097152] : List Nat).sum = 12582912) ∧
    ((∀ x : Int, (0 ≤ x ∧ x < ((12582912 : Nat) : Int)) ↔
      ∃! i : Nat, i < ([5242880, 5242880, 2097152] : List Nat).length ∧
        x ∈ partByteSet 5242880 12582912 (i + 1)
          (([5242880, 5242880, 2097152] : List Nat).getD i 0)) ∧
    (chunkSizeDefault = 5242880 ∧
      startByte 5242880 1 = 0 ∧ endByte 5242880 12582912 1 5242880 = 5242879 ∧
      startByte 5242880 2 = 5242880 ∧ endByte 5242880 12582912 2 5242880 = 10485759 ∧
      startByte 5242880 3 = 10485760 ∧ endByte 5242880 12582912 3 1572864 = 12058623)) :=
  ⟨⟨by norm_num, by rfl, by norm_num⟩,
    chunk_ranges_tile 5242880 12582912 2 2097152 [5242880, 5242880, 2097152]
      (by norm_num) (by rfl) (by norm_num)⟩
